import Mathlib

/-!
Verification development for the WMS CSV/XLSX → SQLite ingestion pipeline
(`src/io_readers.py`, `src/loader.py`).

Record sets (pandas DataFrames) are modelled as a list of column names plus a
list of rows, each row a list of optional text cells (`none` = NA).  All
pipeline steps from the source are translated as executable functions; the
external libraries (pandas parsing, dateutil, sqlite, the file system) enter
only through explicit environment records, exactly at the points where the
source calls them.
-/

set_option maxRecDepth 100000

namespace WMS

/-- A single cell: all-text frames, `none` models pandas NA. -/
abbrev Cell := Option String

/-- A record set: column names plus rows of cells (positional, like pandas). -/
structure Df where
  cols : List String
  rows : List (List Cell)
deriving DecidableEq

/-- Whitespace as used by Python `str.strip` / `str.split` (ASCII subset). -/
def isPySpace (c : Char) : Bool :=
  c = ' ' || c = '\t' || c = '\n' || c = '\r'

/-- Python `str.lower`, restricted to ASCII plus the accented uppercase
letters that occur in the banner pattern. -/
def pyLowerChar (c : Char) : Char :=
  if c = 'Ç' then 'ç' else if c = 'Ã' then 'ã' else c.toLower

def lowerStr (s : String) : String :=
  ⟨s.data.map pyLowerChar⟩

/-- Strip leading and trailing whitespace from a character list. -/
def trimChars (l : List Char) : List Char :=
  ((l.dropWhile isPySpace).reverse.dropWhile isPySpace).reverse

/-- Python `str.strip()`. -/
def pytrim (s : String) : String :=
  ⟨trimChars s.data⟩

/-- Collapse each whitespace run to a single space (`inRun` records whether
the previous character already belonged to the current run). -/
def collapseRunsAux : Bool → List Char → List Char
  | _, [] => []
  | inRun, c :: cs =>
    if isPySpace c then
      if inRun then collapseRunsAux true cs
      else ' ' :: collapseRunsAux true cs
    else c :: collapseRunsAux false cs

def collapseRuns (l : List Char) : List Char :=
  collapseRunsAux false l

/-- `_normalize_col_name`: drop BOM characters, strip, collapse whitespace
runs (`" ".join(text.split())`). -/
def normalizeColName (s : String) : String :=
  ⟨collapseRuns (trimChars (s.data.filter (fun c => c ≠ '﻿')))⟩

/-- `_normalize_key`: lower-case, remove `.` and space. -/
def normalizeKey (s : String) : String :=
  ⟨(s.data.map pyLowerChar).filter (fun c => c ≠ '.' && c ≠ ' ')⟩

/-- Does `hay` start with `needle`? -/
def charsStart : List Char → List Char → Bool
  | [], _ => true
  | _ :: _, [] => false
  | n :: ns, h :: hs => n = h && charsStart ns hs

/-- Does `hay` contain `needle` as a contiguous substring? -/
def charsContain (needle : List Char) : List Char → Bool
  | [] => charsStart needle []
  | h :: hs => charsStart needle (h :: hs) || charsContain needle hs

def startsWithStr (s pre : String) : Bool :=
  charsStart pre.data s.data

def endsWithStr (s post : String) : Bool :=
  charsStart post.data.reverse s.data.reverse

def containsStr (hay needle : String) : Bool :=
  charsContain needle.data hay.data

/-- `_WF_HEADER_RE = re.compile(r"wf0008|manuten[cç][aã]o de tarefas", re.I)`,
used via `.search`: case-insensitive substring match against the five
literal alternatives the pattern denotes. -/
def wfSearch (s : String) : Bool :=
  let t := lowerStr s
  containsStr t "wf0008" ||
  containsStr t "manutencao de tarefas" ||
  containsStr t "manutencão de tarefas" ||
  containsStr t "manutençao de tarefas" ||
  containsStr t "manutenção de tarefas"

def isDigitChar (c : Char) : Bool :=
  '0' ≤ c && c ≤ '9'

/-- Does the list start with `\d{4}-\d{2}-\d{2}[T ]\d{2}:\d{2}`?  (The
optional trailing `(:\d{2})?` of `_ISO_TS_RE` cannot change whether a
search succeeds.) -/
def matchIsoAt : List Char → Bool
  | y1 :: y2 :: y3 :: y4 :: '-' :: m1 :: m2 :: '-' :: d1 :: d2 :: t ::
      h1 :: h2 :: ':' :: n1 :: n2 :: _ =>
    isDigitChar y1 && isDigitChar y2 && isDigitChar y3 && isDigitChar y4 &&
    isDigitChar m1 && isDigitChar m2 && isDigitChar d1 && isDigitChar d2 &&
    (t = 'T' || t = ' ') &&
    isDigitChar h1 && isDigitChar h2 && isDigitChar n1 && isDigitChar n2
  | _ => false

def isoTsSearchAux : List Char → Bool
  | [] => false
  | c :: cs => matchIsoAt (c :: cs) || isoTsSearchAux cs

/-- `_ISO_TS_RE.search`. -/
def isoTsSearch (s : String) : Bool :=
  isoTsSearchAux s.data

/-- `EXPECTED_WMS_COLUMNS`. -/
def EXPECTED_WMS_COLUMNS : List String :=
  ["Tarefa", "Tipo", "Onda", "Data inicial", "Data final", "Item", "Origem",
   "Destino", "Qtd.", "Emb.", "Exec.", "Prio", "Lib.", "Tar. bloq.", "Prio.B",
   "Bloqs.", "Pedido", "Aut. receb.", "Data tarefa", "Lote", "Almoxarifado",
   "Carga", "Unitizador"]

/-- `TECH_COLUMNS`. -/
def TECH_COLUMNS : List String :=
  ["_source_file", "_source_sheet", "_source_mtime", "_loaded_at"]

/-- The fixed expected-then-technical column order of `_ensure_schema`. -/
def orderedCols : List String :=
  EXPECTED_WMS_COLUMNS ++ TECH_COLUMNS

/-- `_is_junk_column`. -/
def isJunkColumn (name : String) : Bool :=
  if name = "" then true
  else
    startsWithStr (lowerStr name) "unnamed" ||
    startsWithStr (normalizeKey name) "nan" ||
    wfSearch name ||
    (lowerStr name = "resultado") ||
    containsStr name ":\\" ||
    isoTsSearch name

/-- `_map_special_columns`. -/
def mapSpecialColumns (name : String) : String :=
  let lower := lowerStr name
  let key := normalizeKey name
  if key = "sourcefile" || key = "source_file" || key = "arquivoorigem" ||
      key = "arquivo_origem" then "_source_file"
  else if endsWithStr lower "ile" &&
      (containsStr lower "source" || containsStr lower "arquivo") then
    "_source_file"
  else name

/-- `expected_map` lookup: canonical expected column for a normalized key. -/
def lookupExpected (key : String) : Option String :=
  EXPECTED_WMS_COLUMNS.find? (fun n => normalizeKey n = key)

/-- `tech_map` lookup. -/
def lookupTech (key : String) : Option String :=
  TECH_COLUMNS.find? (fun n => normalizeKey n = key)

/-- The per-column loop of `_normalize_columns`: a keep mask (parallel to the
input columns) plus the renamed kept columns. -/
def classifyCols : List String → List Bool × List String
  | [] => ([], [])
  | c :: cs =>
    let rest := classifyCols cs
    let norm := normalizeColName c
    if norm = "" then (false :: rest.1, rest.2)
    else
      let norm2 := mapSpecialColumns norm
      let key := normalizeKey norm2
      if isJunkColumn norm2 then (false :: rest.1, rest.2)
      else
        match lookupExpected key with
        | some canon => (true :: rest.1, canon :: rest.2)
        | none =>
          match lookupTech key with
          | some canon => (true :: rest.1, canon :: rest.2)
          | none => (false :: rest.1, rest.2)

/-- The duplicate-elimination loop of `_normalize_columns` (first occurrence
of each kept name wins). -/
def dedupMaskCols (seen : List String) : List String → List Bool × List String
  | [] => ([], [])
  | c :: cs =>
    if c ∈ seen then
      let rest := dedupMaskCols seen cs
      (false :: rest.1, rest.2)
    else
      let rest := dedupMaskCols (c :: seen) cs
      (true :: rest.1, c :: rest.2)

/-- `df.loc[:, mask]` applied to one row: keep the cells whose position the
mask marks `true`. -/
def selectMask : List Bool → List Cell → List Cell
  | b :: bs, x :: xs => if b then x :: selectMask bs xs else selectMask bs xs
  | _, _ => []

/-- `_normalize_columns`. -/
def normalizeColumns (df : Df) : Df :=
  let pass1 := classifyCols df.cols
  let rows1 := df.rows.map (selectMask pass1.1)
  let pass2 := dedupMaskCols [] pass1.2
  { cols := pass2.2, rows := rows1.map (selectMask pass2.1) }

/-- A cell that `df.replace(r"^\s*$", NA, regex=True)` turns into NA:
NA itself or an all-whitespace string. -/
def blankCell : Cell → Bool
  | none => true
  | some s => s.data.all isPySpace

def blankRow (r : List Cell) : Bool :=
  r.all blankCell

/-- `_drop_fully_empty_rows` (the `df.empty` guard covers a frame with no
columns or no rows). -/
def dropFullyEmptyRows (df : Df) : Df :=
  if df.cols.isEmpty || df.rows.isEmpty then df
  else { cols := df.cols, rows := df.rows.filter (fun r => !blankRow r) }

/-- Position of the first occurrence of a column name. -/
def idxOf : List String → String → Nat
  | [], _ => 0
  | c :: cs, d => if c = d then 0 else idxOf cs d + 1

/-- Name-based cell access (`df[c]` for one row); NA when absent. -/
def getCell (cols : List String) (r : List Cell) (c : String) : Cell :=
  (r.get? (idxOf cols c)).getD none

/-- `_ensure_schema`: pad absent expected/technical columns with NA, then
reorder to the fixed expected-then-technical order. -/
def ensureSchema (df : Df) : Df :=
  let padded := orderedCols.foldl
    (fun acc c =>
      if acc.cols.contains c then acc
      else { cols := acc.cols ++ [c], rows := acc.rows.map (fun r => r ++ [none]) })
    df
  { cols := orderedCols,
    rows := padded.rows.map (fun r => orderedCols.map (getCell padded.cols r)) }

/-- Rewrite one column's cells in place (`df[col] = df[col].apply(f)`). -/
def mapCol (df : Df) (name : String) (f : Cell → Cell) : Df :=
  if name ∈ df.cols then
    let i := idxOf df.cols name
    { cols := df.cols,
      rows := df.rows.map (fun r => r.set i (f ((r.get? i).getD none))) }
  else df

/-- `_clean_date_columns`: strip string values of the three date columns. -/
def cleanDateColumns (df : Df) : Df :=
  ["Data inicial", "Data final", "Data tarefa"].foldl
    (fun acc c => mapCol acc c (Option.map pytrim)) df

/-- `_clean_dataframe`. -/
def cleanDataframe (df : Df) : Df :=
  cleanDateColumns (ensureSchema (dropFullyEmptyRows (normalizeColumns df)))

/-- Error taxonomy of the pipeline (`FileNotFoundError`, read failures,
the required-column `ValueError`, unsupported extensions). -/
inductive LoadErr where
  | notFound (what : String)
  | readError (file : String)
  | schemaError (file : String) (cols : List String)
  | unsupported (file : String)
deriving DecidableEq

/-- `_ensure_required_columns`. -/
def ensureRequiredColumns (df : Df) (fileName : String) : Except LoadErr Unit :=
  if "Tarefa" ∈ df.cols then .ok () else .error (.schemaError fileName df.cols)

/-- One input file as the readers see it: its name, lowered extension, the
materialized all-text content (`none` when every encoding/parse attempt of
the underlying library raises), the detected sheet, and its mtime. -/
structure FileEntry where
  name : String
  ext : String
  parsed : Option Df
  sheet : Option String
  mtime : String
deriving DecidableEq

/-- `read_data_file`: materialize, `_clean_dataframe`, required-column check;
workbooks also carry the detected sheet (`df.attrs["source_sheet"]`). -/
def readDataFile (f : FileEntry) : Except LoadErr (Df × Option String) :=
  if f.ext = ".csv" then
    match f.parsed with
    | none => .error (.readError f.name)
    | some raw =>
      let df := cleanDataframe raw
      match ensureRequiredColumns df f.name with
      | .error e => .error e
      | .ok _ => .ok (df, none)
  else if f.ext = ".xlsx" || f.ext = ".xlsm" || f.ext = ".xls" then
    match f.parsed with
    | none => .error (.readError f.name)
    | some raw =>
      let df := cleanDataframe raw
      match ensureRequiredColumns df f.name with
      | .error e => .error e
      | .ok _ => .ok (df, f.sheet)
  else .error (.unsupported f.name)

/-- Lexicographic code-point comparison of char lists. -/
def charListLt : List Char → List Char → Bool
  | [], [] => false
  | [], _ :: _ => true
  | _ :: _, [] => false
  | a :: as, b :: bs => if a < b then true else if b < a then false else charListLt as bs

/-- `sorted(files, key=lambda p: str(p).lower())` comparison. -/
def nameLtLower (a b : String) : Bool :=
  charListLt (lowerStr a).data (lowerStr b).data

def insertByName (f : FileEntry) : List FileEntry → List FileEntry
  | [] => [f]
  | g :: gs => if nameLtLower f.name g.name then f :: g :: gs else g :: insertByName f gs

def sortFilesByName (l : List FileEntry) : List FileEntry :=
  l.foldl (fun acc f => insertByName f acc) []

/-- `list_data_files`: `FileNotFoundError` on a missing folder, otherwise the
supported-extension files without Excel lock artifacts, sorted by lowered
name. -/
def listDataFiles (folderName : String) (folder : Option (List FileEntry)) :
    Except LoadErr (List FileEntry) :=
  match folder with
  | none => .error (.notFound folderName)
  | some fs =>
    .ok (sortFilesByName
      ((fs.filter (fun f =>
          f.ext = ".csv" || f.ext = ".xlsx" || f.ext = ".xlsm" || f.ext = ".xls")).filter
        (fun f => !startsWithStr f.name "~$")))

/-- External capabilities of the loader: the wall clock (`_ts`) and the
pandas/dateutil day-first parser, returned already rendered in canonical
`YYYY-MM-DD HH:MM:SS` form (`none` = unparseable, stays NaT). -/
structure LoadEnv where
  now : String
  parseDt : String → Option String

/-- Scalar column assignment `df[name] = v` (broadcast; appends when new). -/
def setCol (df : Df) (name : String) (v : Cell) : Df :=
  if name ∈ df.cols then
    let i := idxOf df.cols name
    { cols := df.cols, rows := df.rows.map (fun r => r.set i v) }
  else { cols := df.cols ++ [name], rows := df.rows.map (fun r => r ++ [v]) }

/-- Column assignment from a per-row series, `df[name] = series`. -/
def setColVals (df : Df) (name : String) (vals : List Cell) : Df :=
  if name ∈ df.cols then
    let i := idxOf df.cols name
    { cols := df.cols, rows := (df.rows.zip vals).map (fun p => p.1.set i p.2) }
  else
    { cols := df.cols ++ [name], rows := (df.rows.zip vals).map (fun p => p.1 ++ [p.2]) }

/-- `_parse_datetime_series` on one cell: strip, map the literal null tokens
to missing, then hand to the (abstracted) day-first parser. -/
def parseCell (env : LoadEnv) (c : Cell) : Option String :=
  match c with
  | none => none
  | some s =>
    let t := pytrim s
    if t = "" || t = "None" || t = "nan" || t = "NaT" || t = "NULL" then none
    else env.parseDt t

/-- `_dt_series_to_iso` on one cell: canonical form when parsed, otherwise
the original raw value. -/
def normalizeDtCell (env : LoadEnv) (c : Cell) : Cell :=
  match parseCell env c with
  | some iso => some iso
  | none => c

/-- `_normalize_dt_cols`. -/
def normalizeDtCols (env : LoadEnv) (df : Df) : Df :=
  ["Data inicial", "Data final", "Data tarefa"].foldl
    (fun acc c => mapCol acc c (normalizeDtCell env)) df

/-- `_is_missing_text` on one cell. -/
def isMissingText (c : Cell) : Bool :=
  match c with
  | none => true
  | some s =>
    let t := lowerStr (pytrim s)
    t = "" || t = "none" || t = "nan" || t = "nat" || t = "null"

/-- `_apply_cross_date_fallback`: both masks are computed from the original
values, then each side is filled from the other. -/
def applyCrossDateFallback (df : Df) : Df :=
  if "Data inicial" ∈ df.cols ∧ "Data final" ∈ df.cols then
    let i := idxOf df.cols "Data inicial"
    let j := idxOf df.cols "Data final"
    { cols := df.cols,
      rows := df.rows.map (fun r =>
        let di := (r.get? i).getD none
        let dfv := (r.get? j).getD none
        let r1 := if isMissingText di && !isMissingText dfv then r.set i dfv else r
        if isMissingText dfv && !isMissingText di then r1.set j di else r1) }
  else df

/-- `_compute_dt_ref_dt`: start date first, end date as fallback. -/
def computeDtRef (env : LoadEnv) (df : Df) : List Cell :=
  let hasDi := df.cols.contains "Data inicial"
  let hasDf := df.cols.contains "Data final"
  if hasDi && hasDf then
    df.rows.map (fun r =>
      (parseCell env (getCell df.cols r "Data inicial")).orElse
        (fun _ => parseCell env (getCell df.cols r "Data final")))
  else if hasDi then df.rows.map (fun r => parseCell env (getCell df.cols r "Data inicial"))
  else if hasDf then df.rows.map (fun r => parseCell env (getCell df.cols r "Data final"))
  else df.rows.map (fun _ => none)

/-- The per-file body of the loader loop: read, add audit columns, compute
the per-file `dt_ref` column. -/
def processFile (env : LoadEnv) (addAudit : Bool) (f : FileEntry) : Except LoadErr Df :=
  match readDataFile f with
  | .error e => .error e
  | .ok (df0, sheet) =>
    let df :=
      if addAudit then
        let d1 := setCol df0 "arquivo_origem" (some f.name)
        let d2 := setCol d1 "dt_carga" (some env.now)
        let d3 := setCol d2 "_source_file" (some f.name)
        let d4 := setCol d3 "_source_mtime" (some f.mtime)
        let d5 := setCol d4 "_loaded_at" (some env.now)
        setCol d5 "_source_sheet" sheet
      else df0
    .ok (setColVals df "dt_ref" (computeDtRef env df))

/-- `pd.concat(frames, ignore_index=True)`: union of columns in first-seen
order, rows reindexed onto it (NA fill). -/
def concatFrames (frames : List Df) : Df :=
  let allCols := frames.foldl (fun acc f => acc ++ f.cols.filter (fun c => !acc.contains c)) []
  { cols := allCols,
    rows := frames.foldl
      (fun acc f => acc ++ f.rows.map (fun r => allCols.map (getCell f.cols r))) [] }

/-- Keep-first deduplication (`drop_duplicates`), `seen` holds the keys of
rows already kept. -/
def dropDupsByAux {α K : Type} [DecidableEq K] (key : α → K) (seen : List K) :
    List α → List α
  | [] => []
  | r :: rs =>
    if key r ∈ seen then dropDupsByAux key seen rs
    else r :: dropDupsByAux key (key r :: seen) rs

def dropDupsBy {α K : Type} [DecidableEq K] (key : α → K) (l : List α) : List α :=
  dropDupsByAux key [] l

/-- The fixed business-key subset of the loader's dedup step. -/
def DEDUP_COLS : List String :=
  ["Tarefa", "Tipo", "Onda", "Data inicial", "Data final", "Item", "Origem",
   "Destino", "Qtd.", "Almoxarifado", "Carga", "Unitizador"]

/-- `[c for c in dedup_cols if c in big.columns]`. -/
def dedupKeyCols (cols : List String) : List String :=
  DEDUP_COLS.filter (fun c => cols.contains c)

/-- Row restricted to the key columns. -/
def projectRow (cols keyCols : List String) (r : List Cell) : List Cell :=
  keyCols.map (getCell cols r)

/-- The dedup step of `load_folder_to_table`: subset-keyed when any of the
fixed columns survive, whole-row equality otherwise. -/
def dedupStep (df : Df) : Df :=
  let kc := dedupKeyCols df.cols
  if kc.isEmpty then { cols := df.cols, rows := dropDupsBy id df.rows }
  else { cols := df.cols, rows := dropDupsBy (projectRow df.cols kc) df.rows }

/-- The staging store: named tables. -/
abbrev Store := List (String × Df)

/-- `to_sql(..., if_exists="replace")`. -/
def writeTable (s : Store) (t : String) (d : Df) : Store :=
  if s.any (fun p => p.1 = t) then s.map (fun p => if p.1 = t then (t, d) else p)
  else s ++ [(t, d)]

/-- One `to_sql` call as observed by the store. -/
structure WriteEffect where
  table : String
  data : Df
  chunksize : Nat
deriving DecidableEq

/-- The per-table result record returned to the orchestrator. -/
structure LoadResult where
  table : String
  files_ok : Nat
  files_fail : Nat
  rows : Nat
  status : String
deriving DecidableEq

/-- `load_folder_to_table`: discover files (a missing folder propagates),
read each file with per-file error isolation, consolidate, normalize dates,
apply the cross-date fallback, recompute `dt_ref`, deduplicate, and write.
Returns the result record, the store after the run, and the write effects. -/
def loadFolderToTable (env : LoadEnv) (folderName : String)
    (folder : Option (List FileEntry)) (store : Store) (tableName : String)
    (dropDuplicates addAuditCols : Bool) (chunksize : Nat) :
    Except LoadErr (LoadResult × Store × List WriteEffect) :=
  match listDataFiles folderName folder with
  | .error e => .error e
  | .ok files =>
    let step := fun (acc : Nat × Nat × List Df) (f : FileEntry) =>
      match processFile env addAuditCols f with
      | .ok df => (acc.1 + 1, acc.2.1, acc.2.2 ++ [df])
      | .error _ => (acc.1, acc.2.1 + 1, acc.2.2)
    let tally := files.foldl step (0, 0, [])
    if tally.2.2.isEmpty then
      .ok ({ table := tableName, files_ok := 0, files_fail := 0, rows := 0,
             status := "empty" }, store, [])
    else
      let big := concatFrames tally.2.2
      let big := normalizeDtCols env big
      let big := applyCrossDateFallback big
      let big := setColVals big "dt_ref" (computeDtRef env big)
      let big := if dropDuplicates then dedupStep big else big
      .ok ({ table := tableName, files_ok := tally.1, files_fail := tally.2.1,
             rows := big.rows.length, status := "ok" },
           writeTable store tableName big,
           [{ table := tableName, data := big, chunksize := chunksize }])

/-- The message of the terminal `PermissionError` of `_copy_replace`. -/
def publishFailMsg (dstName : String) : String :=
  "Nao foi possivel publicar o DB final (lock persistente): " ++ dstName

/-- The retried copy+rename of `_copy_replace`: `locked i` tells whether
attempt `i` hits a `PermissionError`; on success the destination's content
becomes the staging content. -/
def copyReplaceAux (locked : Nat → Bool) (srcContent dstName : String) :
    Nat → Nat → Except String String
  | 0, _ => .error (publishFailMsg dstName)
  | k + 1, attempt =>
    if locked attempt then copyReplaceAux locked srcContent dstName k (attempt + 1)
    else .ok srcContent

/-- `_copy_replace`: five attempts, starting at attempt 1. -/
def copyReplace (locked : Nat → Bool) (srcContent dstName : String) :
    Except String String :=
  copyReplaceAux locked srcContent dstName 5 1

/-- `_detect_csv_header` inputs: the first line as each encoding attempt
sees it (`none` = that open raises) and the column count of the one-row
delimiter probe (`none` = the probe raises). -/
structure CsvProbe where
  firstLine : List (Option String)
  probeCols : Option Nat
deriving DecidableEq

/-- `_detect_csv_header`: banner check on the first successfully read first
line, then the delimiter probe; total by construction. -/
def detectCsvHeader (p : CsvProbe) : Nat × String :=
  let headerRow :=
    match (p.firstLine.filter Option.isSome).head? with
    | some (some line) => if line ≠ "" && wfSearch line then 1 else 0
    | _ => 0
  let delim :=
    match p.probeCols with
    | some n => if n ≤ 1 then "," else ";"
    | none => ";"
  (headerRow, delim)

/-- What `load_workbook` yields for a file: `none` when opening raises,
otherwise the A1 cell of the first sheet and the sheet title. -/
abbrev WorkbookOpen := Option (Cell × String)

/-- `_detect_excel_header`: raises iff the workbook cannot be opened. -/
def detectExcelHeader (wb : WorkbookOpen) : Except Unit (Nat × String) :=
  match wb with
  | none => .error ()
  | some (a1, title) =>
    match a1 with
    | some s => if s ≠ "" && wfSearch s then .ok (1, title) else .ok (0, title)
    | none => .ok (0, title)

/-- A file as the format sniffer sees it. -/
structure SniffFile where
  suffix : String
  csv : CsvProbe
  workbook : WorkbookOpen
deriving DecidableEq

/-- `detect_header_row`: only the `.xls` branch guards the workbook open
with a try/except. -/
def detectHeaderRow (f : SniffFile) : Except Unit (Nat × Option String × Option String) :=
  let suffix := lowerStr f.suffix
  if suffix = ".csv" then
    let hd := detectCsvHeader f.csv
    .ok (hd.1, some hd.2, none)
  else if suffix = ".xlsx" || suffix = ".xlsm" then
    match detectExcelHeader f.workbook with
    | .ok (h, t) => .ok (h, none, some t)
    | .error e => .error e
  else if suffix = ".xls" then
    match detectExcelHeader f.workbook with
    | .ok (h, t) => .ok (h, none, some t)
    | .error _ => .ok (0, none, none)
  else .ok (0, none, none)

/-- The write effects of a loader run (none when the run raised). -/
def writeEffects (out : Except LoadErr (LoadResult × Store × List WriteEffect)) :
    List WriteEffect :=
  match out with
  | .ok p => p.2.2
  | .error _ => []

/-- A raw sheet whose header has no match for the required column. -/
def rawNoTarefa : Df := { cols := ["Tipo"], rows := [[some "X"]] }

/-- A workbook file whose sheet lacks the required identifier column. -/
def fileNoTarefa : FileEntry :=
  { name := "t.xlsx", ext := ".xlsx", parsed := some rawNoTarefa,
    sheet := some "Plan1", mtime := "2025-01-01 00:00:00" }

/-- A loader environment whose date parser accepts nothing. -/
def envNoParse : LoadEnv := { now := "2025-06-01 12:00:00", parseDt := fun _ => none }

/-- An input whose only column is dropped as unrecognized while a row
remains; reconciling it yields a full-schema record set of blank rows. -/
def dfJunkOnly : Df := { cols := ["xyz"], rows := [[some "a"]] }

/-- A record set with the full schema and one non-blank row (first cell
`Tarefa = "T1"`), used to instantiate the idempotence theorem. -/
def dfReconciled : Df :=
  { cols := orderedCols, rows := [some "T1" :: List.replicate 26 none] }

/-- An `.xlsx` file whose workbook cannot be opened. -/
def sniffBadXlsx : SniffFile :=
  { suffix := ".xlsx", csv := { firstLine := [], probeCols := none }, workbook := none }

/-- An `.xls` file whose workbook cannot be opened. -/
def sniffBadXls : SniffFile :=
  { suffix := ".xls", csv := { firstLine := [], probeCols := none }, workbook := none }

/-- A two-column record set with one duplicated business key. -/
def dfDup : Df :=
  { cols := ["Tarefa", "obs"],
    rows := [[some "1", some "a"], [some "1", some "b"], [some "2", some "c"]] }

/-- A record set with both date columns, start present and end missing. -/
def dfCross : Df :=
  { cols := ["Data inicial", "Data final"], rows := [[some "01/02/2024 03:04", none]] }

end WMS

namespace WMS

/-! ### Helper lemmas -/

theorem mapCol_cols (df : Df) (name : String) (f : Cell → Cell) :
    (mapCol df name f).cols = df.cols := by
  unfold mapCol
  split <;> rfl

theorem cleanDataframe_cols (df : Df) : (cleanDataframe df).cols = orderedCols := by
  unfold cleanDataframe cleanDateColumns
  simp only [List.foldl]
  rw [mapCol_cols, mapCol_cols, mapCol_cols]
  rfl

theorem idxOf_get? (cols : List String) (c : String) (h : c ∈ cols) :
    cols.get? (idxOf cols c) = some c := by
  induction cols with
  | nil => cases h
  | cons d ds ih =>
    by_cases hd : d = c
    · simp [idxOf, hd]
    · rcases List.mem_cons.mp h with h1 | h2
      · exact absurd h1.symm hd
      · simp only [idxOf, hd, if_false, List.get?]
        exact ih h2

theorem idxOf_lt_length (cols : List String) (c : String) (h : c ∈ cols) :
    idxOf cols c < cols.length := by
  have h1 := idxOf_get? cols c h
  by_contra h2
  rw [List.get?_eq_none.mpr (Nat.le_of_not_lt h2)] at h1
  cases h1

theorem idxOf_eq_length_of_not_mem (cols : List String) (c : String) (h : c ∉ cols) :
    idxOf cols c = cols.length := by
  induction cols with
  | nil => rfl
  | cons d ds ih =>
    have hd : d ≠ c := fun he => h (he ▸ List.mem_cons_self d ds)
    simp [idxOf, hd, ih (fun hm => h (List.mem_cons_of_mem d hm))]

theorem set_get?_self (l : List Cell) (i : Nat) (h : l.get? i = some v) :
    l.set i v = l := by
  induction l generalizing i with
  | nil => rfl
  | cons a as ih =>
    cases i with
    | zero => cases h; rfl
    | succ n => simp only [List.set]; rw [ih n h]

/-! ### C1 -/

/-- C1: the spec requires `read_data_file` to fail with a `SchemaError` when
the required column `Tarefa` is structurally absent after reconciliation.
In the code the check `_ensure_required_columns` runs only after
`_ensure_schema` (inside `_clean_dataframe`) has already padded `Tarefa`
with nulls, so the check can never fire: every cleaned record set contains
`Tarefa`, and on the concrete Tarefa-less file the reader returns a record
set whose `Tarefa` column is all-null instead of raising. -/
theorem requiredColumnCheckUnreachable :
    (∀ df : Df, "Tarefa" ∈ (cleanDataframe df).cols) ∧
    (readDataFile fileNoTarefa).isOk = true ∧
    (readDataFile fileNoTarefa).toOption.map
      (fun p => p.1.rows.map (fun r => getCell p.1.cols r "Tarefa")) = some [none] := by
  refine ⟨fun df => ?_, by decide, by decide⟩
  rw [cleanDataframe_cols]
  decide

/-! ### C2 -/

/-- C2: end-to-end scenario B as the code actually behaves.  For a folder
with exactly one workbook whose sheet lacks the identifier column, the
claimed result is `files_fail=1, files_ok=0, rows=0, status="empty"`; the
code instead reads the file successfully (the required-column check is
unreachable, C1) and returns `files_ok=1, files_fail=0, rows=1,
status="ok"`.  (Moreover the empty branch of `load_folder_to_table`
hardcodes `files_fail: 0`, so even a genuinely failing file could not
produce `files_fail=1` together with `status="empty"`.) -/
theorem scenarioBActualResult :
    (loadFolderToTable envNoParse "picking" (some [fileNoTarefa]) [] "fato_picking"
        true true 50000).toOption.map
      (fun p => (p.1.files_ok, p.1.files_fail, p.1.rows, p.1.status)) =
    some (1, 0, 1, "ok") := by
  decide

/-! ### C3 -/

/-- C3 counterexample: the claim bounds the effective rows-per-insert batch
size by `P // C` for every store parameter ceiling `P`.  On a run over one
ordinary file the written table has `C = 30` columns and the single write
effect carries the caller's `chunksize = 50000` unchanged, while with the
classic SQLite ceiling `P = 999` the bound would be `999 // 30 = 33`. -/
theorem chunksizeNotCappedCounterexample :
    (loadFolderToTable envNoParse "saida" (some [fileNoTarefa]) [] "fato_saida"
        true true 50000).toOption.map
      (fun p => p.2.2.map (fun e => (e.chunksize, e.data.cols.length))) =
      some [(50000, 30)] ∧
    999 / 30 < 50000 := by
  exact ⟨by decide, by decide⟩

/-- C3 amended: `load_folder_to_table` computes no parameter-ceiling cap at
all; every write effect it produces carries exactly the caller-requested
`chunksize`. -/
theorem chunksizePassthrough (env : LoadEnv) (fn : String)
    (folder : Option (List FileEntry)) (store : Store) (tn : String)
    (dd aa : Bool) (cs : Nat) :
    (writeEffects (loadFolderToTable env fn folder store tn dd aa cs)).all
      (fun e => e.chunksize == cs) = true := by
  unfold loadFolderToTable
  cases listDataFiles fn folder with
  | error e => rfl
  | ok files =>
    dsimp only
    split
    · rfl
    · simp [writeEffects]

/-! ### C4 -/

/-- C4 counterexample: with a missing source folder the folder-level load
does not return a structured "empty" result; `list_data_files` raises
`FileNotFoundError` outside the per-file try/except and the error escapes
`load_folder_to_table`. -/
theorem missingFolderRaisesCounterexample :
    loadFolderToTable envNoParse "entrada" none [] "fato_entrada" true true 50000 =
      .error (.notFound "entrada") := by
  rfl

/-- C4 amended: when the source folder does not exist,
`load_folder_to_table` propagates `NotFoundError` to its caller for every
environment and argument choice; no result record is produced. -/
theorem loadMissingFolderPropagates (env : LoadEnv) (fn : String) (store : Store)
    (tn : String) (dd aa : Bool) (cs : Nat) :
    loadFolderToTable env fn none store tn dd aa cs = .error (.notFound fn) := by
  rfl

/-! ### C5 -/

/-- C5 counterexample: `.xlsx` is a supported extension, yet when the
workbook cannot be opened `detect_header_row` propagates the exception
instead of returning a best-effort triple — only the `.xls` branch wraps
`_detect_excel_header` in a try/except. -/
theorem detectHeaderXlsxRaisesCounterexample :
    detectHeaderRow sniffBadXlsx = .error () := by
  rfl

/-- C5 amended: `detect_header_row` never raises for any file whose lowered
suffix is not `.xlsx`/`.xlsm` (in particular for `.csv`, `.xls` and
unsupported suffixes), and for an `.xls` file whose workbook cannot be
opened it returns the default triple (header row 0, no delimiter, no
sheet). -/
theorem detectHeaderRowTotalOutsideXlsx (f : SniffFile)
    (h1 : lowerStr f.suffix ≠ ".xlsx") (h2 : lowerStr f.suffix ≠ ".xlsm") :
    (detectHeaderRow f).isOk = true ∧
    (lowerStr f.suffix = ".xls" → f.workbook = none →
      detectHeaderRow f = .ok (0, none, none)) := by
  unfold detectHeaderRow
  constructor
  · by_cases hc : lowerStr f.suffix = ".csv"
    · simp [hc, Except.isOk, Except.toBool]
    · simp only [hc, if_false, h1, h2]
      by_cases hx : lowerStr f.suffix = ".xls"
      · simp only [hx, if_true]
        cases hw : detectExcelHeader f.workbook with
        | ok p => cases p; simp [Except.isOk, Except.toBool]
        | error e => simp [Except.isOk, Except.toBool]
      · simp [hx, Except.isOk, Except.toBool]
  · intro hx hwb
    have hc : lowerStr f.suffix ≠ ".csv" := by rw [hx]; decide
    simp [hc, h1, h2, hx, hwb, detectExcelHeader]

/-- C5 witness: a locked `.xls` workbook takes the guarded branch and
yields the default triple. -/
theorem detectHeaderRowTotalOutsideXlsxWitness :
    detectHeaderRow sniffBadXls = .ok (0, none, none) :=
  (detectHeaderRowTotalOutsideXlsx sniffBadXls (by decide) (by decide)).2
    (by decide) rfl

/-! ### C6 -/

/-- C6: the publisher's copy+rename retries on a lock failure up to the
attempt ceiling of 5.  If attempts 1–4 hit the lock and attempt 5 does
not, the publish succeeds with the destination content equal to the
staging content; if all 5 attempts hit the lock, it fails with the
`PublishError` naming the destination. -/
theorem copyReplaceRetrySpec (locked1 locked2 : Nat → Bool) (src dst : String)
    (h14 : ∀ i, 1 ≤ i → i ≤ 4 → locked1 i = true) (h5 : locked1 5 = false)
    (hall : ∀ i, 1 ≤ i → i ≤ 5 → locked2 i = true) :
    copyReplace locked1 src dst = .ok src ∧
    copyReplace locked2 src dst = .error (publishFailMsg dst) := by
  constructor
  · show copyReplaceAux locked1 src dst 5 1 = .ok src
    rw [copyReplaceAux, if_pos (h14 1 (by decide) (by decide))]
    rw [copyReplaceAux, if_pos (h14 2 (by decide) (by decide))]
    rw [copyReplaceAux, if_pos (h14 3 (by decide) (by decide))]
    rw [copyReplaceAux, if_pos (h14 4 (by decide) (by decide))]
    rw [copyReplaceAux, if_neg (by rw [h5]; decide)]
  · show copyReplaceAux locked2 src dst 5 1 = .error (publishFailMsg dst)
    rw [copyReplaceAux, if_pos (hall 1 (by decide) (by decide))]
    rw [copyReplaceAux, if_pos (hall 2 (by decide) (by decide))]
    rw [copyReplaceAux, if_pos (hall 3 (by decide) (by decide))]
    rw [copyReplaceAux, if_pos (hall 4 (by decide) (by decide))]
    rw [copyReplaceAux, if_pos (hall 5 (by decide) (by decide))]
    rfl

/-- C6 witness: concrete lock schedules — locked through attempt 4 then
free, and locked on every attempt. -/
theorem copyReplaceRetrySpecWitness :
    copyReplace (fun i => decide (i ≤ 4)) "stage-bytes" "P:final.db" =
      .ok "stage-bytes" ∧
    copyReplace (fun _ => true) "stage-bytes" "P:final.db" =
      .error (publishFailMsg "P:final.db") :=
  copyReplaceRetrySpec (fun i => decide (i ≤ 4)) (fun _ => true)
    "stage-bytes" "P:final.db"
    (fun i _ h2 => decide_eq_true (Nat.le_trans h2 (by decide)))
    (by decide)
    (fun i _ _ => rfl)

/-! ### C7 -/

theorem dropDupsByAux_sublist {α K : Type} [DecidableEq K] (key : α → K)
    (l : List α) : ∀ seen, List.Sublist (dropDupsByAux key seen l) l := by
  induction l with
  | nil => intro seen; exact List.Sublist.refl []
  | cons r rs ih =>
    intro seen
    unfold dropDupsByAux
    split
    · exact List.Sublist.cons r (ih seen)
    · exact List.Sublist.cons₂ r (ih (key r :: seen))

theorem dropDupsByAux_not_seen {α K : Type} [DecidableEq K] (key : α → K)
    (l : List α) : ∀ seen, ∀ y ∈ dropDupsByAux key seen l, key y ∉ seen := by
  induction l with
  | nil => intro seen y hy; cases hy
  | cons r rs ih =>
    intro seen y hy
    unfold dropDupsByAux at hy
    split at hy
    · exact ih seen y hy
    · rcases List.mem_cons.mp hy with h1 | h2
      · subst h1; assumption
      · intro hk
        exact ih (key r :: seen) y h2 (List.mem_cons_of_mem _ hk)

theorem dropDupsByAux_pairwise {α K : Type} [DecidableEq K] (key : α → K)
    (l : List α) :
    ∀ seen, (dropDupsByAux key seen l).Pairwise (fun a b => key a ≠ key b) := by
  induction l with
  | nil => intro seen; exact List.Pairwise.nil
  | cons r rs ih =>
    intro seen
    unfold dropDupsByAux
    split
    · exact ih seen
    · refine List.Pairwise.cons ?_ (ih (key r :: seen))
      intro y hy hk
      exact dropDupsByAux_not_seen key rs (key r :: seen) y hy
        (hk ▸ List.mem_cons_self (key r) seen)

theorem dropDupsByAux_id_on_deduped {α K : Type} [DecidableEq K] (key : α → K)
    (l : List α) :
    ∀ seen, (∀ y ∈ l, key y ∉ seen) →
      l.Pairwise (fun a b => key a ≠ key b) →
      dropDupsByAux key seen l = l := by
  induction l with
  | nil => intro seen _ _; rfl
  | cons r rs ih =>
    intro seen hseen hpw
    unfold dropDupsByAux
    rw [if_neg (hseen r (List.mem_cons_self r rs))]
    congr 1
    refine ih (key r :: seen) ?_ (List.Pairwise.of_cons hpw)
    intro y hy hk
    rcases List.mem_cons.mp hk with h1 | h2
    · exact (List.rel_of_pairwise_cons hpw hy) h1.symm
    · exact hseen y (List.mem_cons_of_mem r hy) h2

theorem dropDupsByAux_find? {α K : Type} [DecidableEq K] (key : α → K)
    (l : List α) :
    ∀ seen, ∀ y ∈ dropDupsByAux key seen l,
      l.find? (fun z => decide (key z = key y)) = some y := by
  induction l with
  | nil => intro seen y hy; cases hy
  | cons r rs ih =>
    intro seen y hy
    unfold dropDupsByAux at hy
    split at hy
    · have hne : key y ≠ key r := by
        intro he
        exact dropDupsByAux_not_seen key rs seen y hy (he ▸ (by assumption))
      rw [List.find?_cons_of_neg _ (by simpa using fun he => hne he.symm)]
      exact ih seen y hy
    · rcases List.mem_cons.mp hy with h1 | h2
      · subst h1
        rw [List.find?_cons_of_pos _ (by simp)]
      · have hne : key y ≠ key r := by
          intro he
          exact dropDupsByAux_not_seen key rs (key r :: seen) y h2
            (he ▸ List.mem_cons_self (key r) seen)
        rw [List.find?_cons_of_neg _ (by simpa using fun he => hne he.symm)]
        exact ih (key r :: seen) y h2

theorem dropDupsBy_idem {α K : Type} [DecidableEq K] (key : α → K) (l : List α) :
    dropDupsBy key (dropDupsBy key l) = dropDupsBy key l :=
  dropDupsByAux_id_on_deduped key (dropDupsBy key l) []
    (fun y _ => List.not_mem_nil (key y)) (dropDupsByAux_pairwise key l [])

/-- The key the dedup step of `load_folder_to_table` uses: the row
projected onto the surviving fixed business columns, falling back to the
whole row when none survive. -/
def dedupKey (df : Df) (r : List Cell) : List Cell :=
  let kc := dedupKeyCols df.cols
  if kc.isEmpty then r else projectRow df.cols kc r

theorem dedupStep_eq (df : Df) :
    dedupStep df = { cols := df.cols, rows := dropDupsBy (dedupKey df) df.rows } := by
  unfold dedupStep dedupKey
  by_cases h : (dedupKeyCols df.cols).isEmpty = true
  · simp only [h, if_true]
    rfl
  · simp only [h, if_false]
    rfl

/-- C7: properties of the business-key deduplication of
`load_folder_to_table`.  The output is an order-preserving subsequence of
the input (hence no longer than it), surviving rows have pairwise distinct
business-key projections, each survivor is the first row of the input
carrying its key, the step is idempotent, and when no fixed business
column survives the projection the key degenerates to whole-row
equality. -/
theorem dedupStepSpec (df : Df) :
    (dedupStep df).cols = df.cols ∧
    List.Sublist (dedupStep df).rows df.rows ∧
    (dedupStep df).rows.length ≤ df.rows.length ∧
    (dedupStep df).rows.Pairwise (fun a b => dedupKey df a ≠ dedupKey df b) ∧
    (∀ r ∈ (dedupStep df).rows,
      df.rows.find? (fun s => decide (dedupKey df s = dedupKey df r)) = some r) ∧
    dedupStep (dedupStep df) = dedupStep df ∧
    (dedupKeyCols df.cols = [] → (dedupStep df).rows = dropDupsBy id df.rows) := by
  rw [dedupStep_eq df]
  refine ⟨rfl, dropDupsByAux_sublist _ df.rows [],
    (dropDupsByAux_sublist _ df.rows []).length_le,
    dropDupsByAux_pairwise _ df.rows [],
    fun r hr => dropDupsByAux_find? _ df.rows [] r hr, ?_, ?_⟩
  · rw [dedupStep_eq]
    have hcols : (Df.mk df.cols (dropDupsBy (dedupKey df) df.rows)).cols = df.cols := rfl
    simp only [hcols]
    congr 1
    exact dropDupsBy_idem (dedupKey df) df.rows
  · intro hkc
    have hk : dedupKey df = id := by
      funext r
      simp [dedupKey, hkc]
    rw [hk]

/-- C7 witness: a concrete record set with one duplicated `Tarefa` key. -/
theorem dedupStepSpecWitness :
    (dedupStep dfDup).rows.length ≤ dfDup.rows.length ∧
    dfDup.rows.find?
      (fun s => decide (dedupKey dfDup s = dedupKey dfDup [some "1", some "a"])) =
      some [some "1", some "a"] :=
  ⟨(dedupStepSpec dfDup).2.2.1,
   (dedupStepSpec dfDup).2.2.2.2.1 [some "1", some "a"] (by decide)⟩

/-! ### C8 -/

theorem getCell_set_self (cols : List String) (r : List Cell) (v : Cell)
    (name : String) (hname : name ∈ cols) (hw : r.length = cols.length) :
    getCell cols (r.set (idxOf cols name) v) name = v := by
  unfold getCell
  rw [List.get?_set_eq_of_lt v (hw ▸ idxOf_lt_length cols name hname)]
  rfl

theorem getCell_set_other (cols : List String) (r : List Cell) (v : Cell)
    (name c : String) (hname : name ∈ cols) (hc : c ≠ name) :
    getCell cols (r.set (idxOf cols name) v) c = getCell cols r c := by
  unfold getCell
  have hne : idxOf cols name ≠ idxOf cols c := by
    by_cases hcm : c ∈ cols
    · intro he
      have h1 := idxOf_get? cols name hname
      have h2 := idxOf_get? cols c hcm
      rw [he, h2] at h1
      exact hc (Option.some.inj h1)
    · rw [idxOf_eq_length_of_not_mem cols c hcm]
      exact Nat.ne_of_lt (idxOf_lt_length cols name hname)
  rw [List.get?_set_ne v r hne]

/-- C8: the cross-field date fallback of `load_folder_to_table`.  For any
row of a record set carrying both date columns, the output start date is
the input end date exactly when the start was missing and the end present
(and symmetrically for the end date), every other column of the row is
unchanged, and the set's columns and row count are preserved.  In
particular a row with both dates present or both missing is unchanged. -/
theorem crossDateFallbackSpec (df : Df)
    (hi : "Data inicial" ∈ df.cols) (hj : "Data final" ∈ df.cols)
    (n : Nat) (r : List Cell) (hr : df.rows.get? n = some r)
    (hw : r.length = df.cols.length) :
    (applyCrossDateFallback df).cols = df.cols ∧
    (applyCrossDateFallback df).rows.length = df.rows.length ∧
    ∃ r2, (applyCrossDateFallback df).rows.get? n = some r2 ∧
      getCell df.cols r2 "Data inicial" =
        (if isMissingText (getCell df.cols r "Data inicial") = true ∧
            isMissingText (getCell df.cols r "Data final") = false
         then getCell df.cols r "Data final"
         else getCell df.cols r "Data inicial") ∧
      getCell df.cols r2 "Data final" =
        (if isMissingText (getCell df.cols r "Data final") = true ∧
            isMissingText (getCell df.cols r "Data inicial") = false
         then getCell df.cols r "Data inicial"
         else getCell df.cols r "Data final") ∧
      ∀ c : String, c ≠ "Data inicial" → c ≠ "Data final" →
        getCell df.cols r2 c = getCell df.cols r c := by
  unfold applyCrossDateFallback
  rw [if_pos ⟨hi, hj⟩]
  refine ⟨rfl, by simp, ?_⟩
  rw [List.get?_map, hr, Option.map_some']
  refine ⟨_, rfl, ?_⟩
  have hdi : (r.get? (idxOf df.cols "Data inicial")).getD none =
      getCell df.cols r "Data inicial" := rfl
  have hdf : (r.get? (idxOf df.cols "Data final")).getD none =
      getCell df.cols r "Data final" := rfl
  dsimp only
  rw [hdi, hdf]
  cases hmi : isMissingText (getCell df.cols r "Data inicial") <;>
    cases hmf : isMissingText (getCell df.cols r "Data final") <;>
    simp only [hmi, hmf, Bool.false_and, Bool.true_and, Bool.and_false,
      Bool.and_true, Bool.not_true, Bool.not_false, Bool.false_eq_true,
      Bool.true_eq_false, if_false, if_true, false_and, and_false, true_and,
      and_true, and_self, ite_false, ite_true, ite_self, not_true, not_false_iff]
  · exact fun c _ _ => trivial
  · refine ⟨?_, ?_, ?_⟩
    · exact getCell_set_other df.cols r _ "Data final" "Data inicial" hj (by decide)
    · exact getCell_set_self df.cols r _ "Data final" hj hw
    · intro c _ hc2
      exact getCell_set_other df.cols r _ "Data final" c hj hc2
  · refine ⟨?_, ?_, ?_⟩
    · exact getCell_set_self df.cols r _ "Data inicial" hi hw
    · exact getCell_set_other df.cols r _ "Data inicial" "Data final" hi (by decide)
    · intro c hc1 _
      exact getCell_set_other df.cols r _ "Data inicial" c hi hc1
  · exact fun c _ _ => trivial

/-- C8 witness: a concrete set with start date present and end date
missing. -/
theorem crossDateFallbackSpecWitness :
    (applyCrossDateFallback dfCross).cols = dfCross.cols ∧
    (applyCrossDateFallback dfCross).rows.length = dfCross.rows.length :=
  ⟨(crossDateFallbackSpec dfCross (by decide) (by decide) 0
      [some "01/02/2024 03:04", none] rfl (by decide)).1,
   (crossDateFallbackSpec dfCross (by decide) (by decide) 0
      [some "01/02/2024 03:04", none] rfl (by decide)).2.1⟩

/-! ### C9 -/

/-- C9 counterexample: reconciliation is not idempotent on every record set
carrying the full expected+technical schema in the fixed order.  When an
input's only column is dropped as unrecognized while a data row remains,
the `df.empty` guard of `_drop_fully_empty_rows` skips row dropping (the
frame has no columns), `_ensure_schema` then pads a full-schema record set
of all-blank rows, and a second reconciliation drops those rows. -/
theorem reconcileNotIdempotentCounterexample :
    (cleanDataframe dfJunkOnly).cols = orderedCols ∧
    cleanDataframe (cleanDataframe dfJunkOnly) ≠ cleanDataframe dfJunkOnly :=
  ⟨by decide, by decide⟩

theorem map_self_of_all {α : Type} (l : List α) (f : α → α)
    (h : ∀ a ∈ l, f a = a) : l.map f = l := by
  induction l with
  | nil => rfl
  | cons x xs ih =>
    rw [List.map_cons, h x (List.mem_cons_self x xs),
      ih (fun a ha => h a (List.mem_cons_of_mem x ha))]

theorem rangeMapGetD (r : List Cell) (n : Nat) (h : r.length = n) :
    (List.range n).map (fun i => (r.get? i).getD none) = r := by
  induction r generalizing n with
  | nil =>
    subst h
    rfl
  | cons a t ih =>
    subst h
    rw [List.length_cons, List.range_succ_eq_map, List.map_cons, List.map_map]
    show a :: (List.range t.length).map (fun i => (t.get? i).getD none) = a :: t
    rw [ih t.length rfl]

theorem orderedMapGetCell (r : List Cell) (h : r.length = 27) :
    orderedCols.map (getCell orderedCols r) = r :=
  rangeMapGetD r 27 h

theorem selectMask_replicate_true (n : Nat) (r : List Cell) (h : r.length = n) :
    selectMask (List.replicate n true) r = r := by
  induction n generalizing r with
  | zero =>
    rw [List.length_eq_zero.mp h]
    rfl
  | succ m ih =>
    cases r with
    | nil => cases h
    | cons a t =>
      rw [List.replicate_succ]
      show a :: selectMask (List.replicate m true) t = a :: t
      rw [ih t (Nat.succ.inj h)]

theorem normalizeColumns_ordered (rows : List (List Cell))
    (hw : ∀ r ∈ rows, r.length = 27) :
    normalizeColumns ⟨orderedCols, rows⟩ = ⟨orderedCols, rows⟩ := by
  have h1 : classifyCols orderedCols = (List.replicate 27 true, orderedCols) := by
    decide
  have h2 : dedupMaskCols [] orderedCols = (List.replicate 27 true, orderedCols) := by
    decide
  show Df.mk (dedupMaskCols [] (classifyCols orderedCols).2).2
      ((rows.map (selectMask (classifyCols orderedCols).1)).map
        (selectMask (dedupMaskCols [] (classifyCols orderedCols).2).1)) =
    ⟨orderedCols, rows⟩
  rw [h1]
  show Df.mk (dedupMaskCols [] orderedCols).2
      ((rows.map (selectMask (List.replicate 27 true))).map
        (selectMask (dedupMaskCols [] orderedCols).1)) = ⟨orderedCols, rows⟩
  rw [h2]
  have hone : rows.map (selectMask (List.replicate 27 true)) = rows :=
    map_self_of_all rows _ (fun r hr => selectMask_replicate_true 27 r (hw r hr))
  show Df.mk orderedCols
      ((rows.map (selectMask (List.replicate 27 true))).map
        (selectMask (List.replicate 27 true))) = ⟨orderedCols, rows⟩
  rw [hone, hone]

theorem dropFullyEmptyRows_ordered (rows : List (List Cell))
    (hnb : ∀ r ∈ rows, blankRow r = false) :
    dropFullyEmptyRows ⟨orderedCols, rows⟩ = ⟨orderedCols, rows⟩ := by
  have hfil : List.filter (fun r => !blankRow r) rows = rows :=
    List.filter_eq_self.mpr (fun r hr => by rw [hnb r hr]; rfl)
  unfold dropFullyEmptyRows
  dsimp only
  rw [hfil]
  exact ite_self _

theorem foldPad_id (l : List String) (d : Df)
    (h : ∀ c ∈ l, d.cols.contains c = true) :
    l.foldl
      (fun acc c =>
        if acc.cols.contains c then acc
        else { cols := acc.cols ++ [c], rows := acc.rows.map (fun r => r ++ [none]) })
      d = d := by
  induction l generalizing d with
  | nil => rfl
  | cons c cs ih =>
    rw [List.foldl_cons, if_pos (h c (List.mem_cons_self c cs))]
    exact ih d (fun x hx => h x (List.mem_cons_of_mem c hx))

theorem ensureSchema_ordered (rows : List (List Cell))
    (hw : ∀ r ∈ rows, r.length = 27) :
    ensureSchema ⟨orderedCols, rows⟩ = ⟨orderedCols, rows⟩ := by
  have hcont : ∀ c ∈ orderedCols, orderedCols.contains c = true := by decide
  unfold ensureSchema
  rw [foldPad_id orderedCols ⟨orderedCols, rows⟩ hcont]
  dsimp only
  have hrows : rows.map (fun r => orderedCols.map (getCell orderedCols r)) = rows :=
    map_self_of_all rows _ (fun r hr => orderedMapGetCell r (hw r hr))
  rw [hrows]

theorem mapCol_id_of_fixed (df : Df) (name : String) (f : Cell → Cell)
    (hn : name ∈ df.cols)
    (hlt : ∀ r ∈ df.rows, idxOf df.cols name < r.length)
    (hfix : ∀ r ∈ df.rows, f (getCell df.cols r name) = getCell df.cols r name) :
    mapCol df name f = df := by
  obtain ⟨cols, rows⟩ := df
  dsimp only at hn hlt hfix
  unfold mapCol
  rw [if_pos hn]
  have hmap : rows.map
      (fun r => r.set (idxOf cols name)
        (f ((r.get? (idxOf cols name)).getD none))) = rows := by
    refine map_self_of_all rows _ ?_
    intro r hr
    cases hv : r.get? (idxOf cols name) with
    | none =>
      exact absurd (List.get?_eq_none.mp hv) (Nat.not_le_of_lt (hlt r hr))
    | some v =>
      have hgv : getCell cols r name = v := by
        unfold getCell
        rw [hv]
        rfl
      have hfv := hfix r hr
      rw [hgv] at hfv
      show r.set (idxOf cols name) (f v) = r
      rw [hfv]
      exact set_get?_self r (idxOf cols name) hv
  show Df.mk cols
      (rows.map (fun r => r.set (idxOf cols name)
        (f ((r.get? (idxOf cols name)).getD none)))) = ⟨cols, rows⟩
  rw [hmap]

theorem cleanDateColumns_ordered (df : Df) (hc : df.cols = orderedCols)
    (hw : ∀ r ∈ df.rows, r.length = 27)
    (hdt : ∀ r ∈ df.rows, ∀ c ∈ ["Data inicial", "Data final", "Data tarefa"],
      Option.map pytrim (getCell df.cols r c) = getCell df.cols r c) :
    cleanDateColumns df = df := by
  have hstep : ∀ c ∈ ["Data inicial", "Data final", "Data tarefa"],
      mapCol df c (Option.map pytrim) = df := by
    intro c hcm
    have hcs : c = "Data inicial" ∨ c = "Data final" ∨ c = "Data tarefa" := by
      simpa using hcm
    refine mapCol_id_of_fixed df c (Option.map pytrim) ?_ ?_ ?_
    · rw [hc]
      rcases hcs with h | h | h <;> subst h <;> decide
    · intro r hr
      rw [hc, hw r hr]
      rcases hcs with h | h | h <;> subst h <;> decide
    · intro r hr
      exact hdt r hr c hcm
  unfold cleanDateColumns
  simp only [List.foldl]
  rw [hstep "Data inicial" (by decide), hstep "Data final" (by decide),
    hstep "Data tarefa" (by decide)]

/-- C9 amended: reconciliation (`_clean_dataframe`) leaves unchanged every
record set that already has the full expected+technical schema in the
fixed order, rectangular rows, no fully-blank row, and date values already
stripped — the invariants its own output satisfies except when every input
column was eliminated while data rows remained (the counterexample, where
the output consists of fully-blank rows that a second pass drops). -/
theorem cleanDataframeFixedOnReconciled (df : Df) (hc : df.cols = orderedCols)
    (hw : ∀ r ∈ df.rows, r.length = 27)
    (hnb : ∀ r ∈ df.rows, blankRow r = false)
    (hdt : ∀ r ∈ df.rows, ∀ c ∈ ["Data inicial", "Data final", "Data tarefa"],
      Option.map pytrim (getCell df.cols r c) = getCell df.cols r c) :
    cleanDataframe df = df := by
  obtain ⟨cols, rows⟩ := df
  dsimp only at hc hw hnb hdt
  subst hc
  unfold cleanDataframe
  rw [normalizeColumns_ordered rows hw, dropFullyEmptyRows_ordered rows hnb,
    ensureSchema_ordered rows hw]
  exact cleanDateColumns_ordered ⟨orderedCols, rows⟩ rfl hw hdt

/-- C9 witness: a one-row full-schema record set with a non-blank first
cell and no untrimmed date text is a fixed point of reconciliation. -/
theorem cleanDataframeFixedOnReconciledWitness :
    cleanDataframe dfReconciled = dfReconciled :=
  cleanDataframeFixedOnReconciled dfReconciled rfl (by decide) (by decide)
    (by decide)

/-! ### C10 -/

/-- C10: whenever `load_folder_to_table` returns the "empty" result, the
run performed no store write at all — the store is exactly the input store
and the list of write effects is empty (the early return happens before
`_connect_sqlite`/`to_sql` are reached). -/
theorem loadEmptyNoWrite (env : LoadEnv) (fn : String)
    (folder : Option (List FileEntry)) (store : Store) (tn : String)
    (dd aa : Bool) (cs : Nat) (res : LoadResult) (store2 : Store)
    (effs : List WriteEffect)
    (h : loadFolderToTable env fn folder store tn dd aa cs = .ok (res, store2, effs))
    (hs : res.status = "empty") :
    store2 = store ∧ effs = [] := by
  unfold loadFolderToTable at h
  cases hls : listDataFiles fn folder with
  | error e =>
    rw [hls] at h
    cases h
  | ok files =>
    rw [hls] at h
    dsimp only at h
    split at h
    · simp only [Except.ok.injEq, Prod.mk.injEq] at h
      exact ⟨h.2.1.symm, h.2.2.symm⟩
    · simp only [Except.ok.injEq, Prod.mk.injEq] at h
      rw [← h.1] at hs
      dsimp only at hs
      exact absurd hs (by decide)

/-- C10 witness: an existing folder with no files yields the "empty" result
and leaves a nonempty store untouched. -/
theorem loadEmptyNoWriteWitness :
    ([("fato_entrada", Df.mk ["Tarefa"] [])] : Store) =
      [("fato_entrada", Df.mk ["Tarefa"] [])] ∧
    ([] : List WriteEffect) = [] :=
  loadEmptyNoWrite envNoParse "vazia" (some []) [("fato_entrada", Df.mk ["Tarefa"] [])]
    "fato_x" true true 50000
    { table := "fato_x", files_ok := 0, files_fail := 0, rows := 0, status := "empty" }
    [("fato_entrada", Df.mk ["Tarefa"] [])] [] rfl rfl

end WMS
